import Mathlib

/-!
A verification development for the f5-declarative-onboarding reconciliation
engine.  It gives a shallow embedding of `src/lib/state.js` (the task state
store, its accessors, the retention purge, and the persisted-state upgrade
path) and of `src/lib/authHandler.js` (the authentication domain handler,
modelled as the ordered trace of device-client calls it issues), and proves
the retention, accessor, masking, migration and ordering properties of the
specification against those embeddings.
-/

namespace FDO

/-- JSON-like values, the shape of declarations, configs and persisted state
blobs.  `null` also stands for a JS `undefined` property value where one is
written into an object. -/
inductive JVal where
  | null
  | bool (b : Bool)
  | num (n : Int)
  | str (s : String)
  | arr (elems : List JVal)
  | obj (fields : List (String × JVal))

/-- A JS object: an insertion-ordered association list of properties. -/
abbrev JObj := List (String × JVal)

/-- Property read on an association list: first entry with the given key
(JS objects have unique keys, so this is the JS property read). -/
def tlookup (k : String) : List (String × α) → Option α
  | [] => none
  | (k', v) :: rest => if k' = k then some v else tlookup k rest

/-- Property write on an association list: replace the first entry with the
given key in place, or append a new entry (JS insertion-order semantics). -/
def tset (k : String) (v : α) : List (String × α) → List (String × α)
  | [] => [(k, v)]
  | (k', v') :: rest => if k' = k then (k, v) :: rest else (k', v') :: tset k v rest

/-- JS truthiness of a value. -/
def jsTruthy : JVal → Bool
  | .null => false
  | .bool b => b
  | .num n => decide (n ≠ 0)
  | .str s => decide (s ≠ "")
  | .arr _ => true
  | .obj _ => true

/-- JS truthiness of `o.k` (an absent property is `undefined`, hence falsy). -/
def truthyField (o : JObj) (k : String) : Bool :=
  match tlookup k o with
  | some v => jsTruthy v
  | none => false

/-- Property read on a `JVal`: only objects have properties. -/
def getField (v : JVal) (k : String) : Option JVal :=
  match v with
  | .obj fs => tlookup k fs
  | _ => none

/-- Property write on a `JVal`; writing on a non-object occurs nowhere in the
modelled code paths. -/
def setField (k : String) (v : JVal) : JVal → JVal
  | .obj fs => .obj (tset k v fs)
  | other => other

/-- Modelled from the spec: the key set that `doUtil.mask` redacts
(src/lib/doUtil.js is not among the provided sources).  The spec names
"secret-bearing fields such as passwords", "LDAP `bindPassword`" and
"RADIUS `secret`". -/
def SECRET_KEYS : List String := ["password", "bindPassword", "secret"]

/-- Modelled from the spec: the redaction marker that replaces a secret. -/
def REDACTED : String := "********"

mutual

/-- Modelled from the spec: `doUtil.mask` (src/lib/doUtil.js is not among the
provided sources).  "Declarations are stored masked (secret-bearing fields
such as passwords replaced with redaction markers) before persistence": every
property whose key is a secret key has its value replaced by the marker,
recursively through the document. -/
def mask : JVal → JVal
  | .null => .null
  | .bool b => .bool b
  | .num n => .num n
  | .str s => .str s
  | .arr elems => .arr (maskList elems)
  | .obj fields => .obj (maskFields fields)

def maskList : List JVal → List JVal
  | [] => []
  | v :: rest => mask v :: maskList rest

def maskFields : List (String × JVal) → List (String × JVal)
  | [] => []
  | (k, v) :: rest =>
    (if SECRET_KEYS.contains k then (k, .str REDACTED) else (k, mask v)) :: maskFields rest

end

/-- `true` iff the value is exactly the redaction marker string. -/
def isRedactedStr : JVal → Bool
  | .str s => decide (s = REDACTED)
  | _ => false

mutual

/-- `true` iff every property of the document whose key is a secret key holds
exactly the redaction marker (i.e. the document carries no raw secret at a
secret-bearing position). -/
def maskedOk : JVal → Bool
  | .null => true
  | .bool _ => true
  | .num _ => true
  | .str _ => true
  | .arr elems => maskedOkList elems
  | .obj fields => maskedOkFields fields

def maskedOkList : List JVal → Bool
  | [] => true
  | v :: rest => maskedOk v && maskedOkList rest

def maskedOkFields : List (String × JVal) → Bool
  | [] => true
  | (k, v) :: rest =>
    (if SECRET_KEYS.contains k then isRedactedStr v else maskedOk v) && maskedOkFields rest

end

/-! ## The task state store (src/lib/state.js) -/

/-- A task's `result` object.  Fields start absent (`{}`) and are filled in
by the result accessors. -/
structure TaskResult where
  code : Option Int := none
  status : Option String := none
  message : Option String := none
  errors : Option (List String) := none
deriving DecidableEq

/-- One task record as built by `State.addTask` and mutated by the accessors.
`lastUpdate` is a JS `Date`, modelled as milliseconds since the epoch. -/
structure Task where
  id : String
  lastUpdate : Int
  result : TaskResult := {}
  internalDeclaration : JVal := .obj []
  currentConfig : Option JVal := none
  originalConfig : Option JVal := none
  rebootRequired : Option Bool := none
  requestOptions : Option JVal := none
  rollbackInfo : Option JVal := none
  traceCurrent : Option JVal := none
  traceDesired : Option JVal := none
  traceDiff : Option JVal := none

/-- The declarative-onboarding state: original configs by config id, the task
table by task id, and the most recent task id. -/
structure State where
  originalConfig : List (String × JVal)
  tasks : List (String × Task)
  mostRecentTask : Option String

/-- `TASK_RETENTION_DAYS` in state.js. -/
def TASK_RETENTION_DAYS : Int := 7

/-- `maxAge` in `cleanupOldTasks`: the retention window in milliseconds. -/
def taskMaxAge : Int := TASK_RETENTION_DAYS * 1000 * 3600 * 24

/-- `cleanupOldTasks`: delete every task whose `lastUpdate` is more than
`maxAge` milliseconds before `now`. -/
def cleanupOldTasks (now : Int) (tasks : List (String × Task)) : List (String × Task) :=
  tasks.filter fun p => !(decide (now - p.2.lastUpdate > taskMaxAge))

/-- `new State()` with no existing state. -/
def State.initial : State :=
  { originalConfig := [], tasks := [], mostRecentTask := none }

/-- The fresh task record `addTask` stores. -/
def newTask (taskId : String) (now : Int) : Task :=
  { id := taskId, lastUpdate := now }

/-- `State.addTask`.  The JS generates the fresh id with `uuidv4()` and reads
the clock; both are explicit arguments here. -/
def State.addTask (s : State) (taskId : String) (now : Int) : String × State :=
  let tasks := tset taskId (newTask taskId now) s.tasks
  (taskId, { s with tasks := cleanupOldTasks now tasks, mostRecentTask := some taskId })

/-- `State.getTask`: `return this.tasks[taskId]` — `none` models the JS
`undefined` returned for a missing task (this accessor does not throw). -/
def State.getTask (s : State) (taskId : String) : Option Task :=
  tlookup taskId s.tasks

/-- `State.getTaskIds`: `Object.keys(this.tasks)`. -/
def State.getTaskIds (s : State) : List String :=
  s.tasks.map Prod.fst

/-- The message of the error every throwing accessor raises for a missing
task id. -/
def notFound : String := "taskId does not exist"

/-- The common accessor pattern `if (this.tasks[taskId]) { mutate } else
throw new Error('taskId does not exist')`. -/
def State.updateTask (s : State) (taskId : String) (f : Task → Task) : Except String State :=
  match tlookup taskId s.tasks with
  | some t => .ok { s with tasks := tset taskId (f t) s.tasks }
  | none => .error notFound

/-- The common accessor pattern `if (this.tasks[taskId]) { return field }
else throw new Error('taskId does not exist')`. -/
def State.readTask (s : State) (taskId : String) (f : Task → α) : Except String α :=
  match tlookup taskId s.tasks with
  | some t => .ok (f t)
  | none => .error notFound

/-- `State.setCurrentConfig` (the JSON round-trip deep copy is the identity
on values). -/
def State.setCurrentConfig (s : State) (taskId : String) (currentConfig : JVal) :
    Except String State :=
  s.updateTask taskId fun t => { t with currentConfig := some currentConfig }

/-- `State.getCurrentConfig`. -/
def State.getCurrentConfig (s : State) (taskId : String) : Except String (Option JVal) :=
  s.readTask taskId fun t => t.currentConfig

/-- `State.setOriginalConfigByConfigId`. -/
def State.setOriginalConfigByConfigId (s : State) (id : String) (originalConfig : JVal) : State :=
  { s with originalConfig := tset id originalConfig s.originalConfig }

/-- `State.getOriginalConfigByConfigId`: returns `null` (here `none`) for a
missing config id. -/
def State.getOriginalConfigByConfigId (s : State) (id : String) : Option JVal :=
  tlookup id s.originalConfig

/-- `State.getOriginalConfigByTaskId`. -/
def State.getOriginalConfigByTaskId (s : State) (taskId : String) : Except String (Option JVal) :=
  s.readTask taskId fun t => t.originalConfig

/-- `State.deleteOriginalConfigByConfigId`. -/
def State.deleteOriginalConfigByConfigId (s : State) (id : String) : State :=
  { s with originalConfig := s.originalConfig.filter fun p => decide (p.1 ≠ id) }

/-- `State.getOriginalConfigIds`. -/
def State.getOriginalConfigIds (s : State) : List String :=
  s.originalConfig.map Prod.fst

/-- `State.setCode`. -/
def State.setCode (s : State) (taskId : String) (code : Int) : Except String State :=
  s.updateTask taskId fun t => { t with result := { t.result with code := some code } }

/-- `State.getCode`. -/
def State.getCode (s : State) (taskId : String) : Except String (Option Int) :=
  s.readTask taskId fun t => t.result.code

/-- `State.setMessage`. -/
def State.setMessage (s : State) (taskId : String) (message : String) : Except String State :=
  s.updateTask taskId fun t => { t with result := { t.result with message := some message } }

/-- `State.getMessage`. -/
def State.getMessage (s : State) (taskId : String) : Except String (Option String) :=
  s.readTask taskId fun t => t.result.message

/-- `State.setStatus`. -/
def State.setStatus (s : State) (taskId : String) (status : String) : Except String State :=
  s.updateTask taskId fun t => { t with result := { t.result with status := some status } }

/-- `State.getStatus`. -/
def State.getStatus (s : State) (taskId : String) : Except String (Option String) :=
  s.readTask taskId fun t => t.result.status

/-- `State.setErrors`: a present array replaces the stored one with a copy
(`errors.slice()`); a missing argument clears the stored array in place
(`result.errors.length = 0`) when one exists. -/
def State.setErrors (s : State) (taskId : String) (errors : Option (List String)) :
    Except String State :=
  s.updateTask taskId fun t =>
    { t with
      result :=
        { t.result with
          errors :=
            match errors with
            | some es => some es
            | none =>
              match t.result.errors with
              | some _ => some []
              | none => none } }

/-- `State.getErrors`. -/
def State.getErrors (s : State) (taskId : String) : Except String (Option (List String)) :=
  s.readTask taskId fun t => t.result.errors

/-- `State.setDeclaration`: stores `doUtil.mask(declaration)`. -/
def State.setDeclaration (s : State) (taskId : String) (declaration : JVal) :
    Except String State :=
  s.updateTask taskId fun t => { t with internalDeclaration := mask declaration }

/-- `State.getDeclaration`. -/
def State.getDeclaration (s : State) (taskId : String) : Except String JVal :=
  s.readTask taskId fun t => t.internalDeclaration

/-- `State.setRebootRequired`. -/
def State.setRebootRequired (s : State) (taskId : String) (rebootRequired : Bool) :
    Except String State :=
  s.updateTask taskId fun t => { t with rebootRequired := some rebootRequired }

/-- `State.getRebootRequired`. -/
def State.getRebootRequired (s : State) (taskId : String) : Except String (Option Bool) :=
  s.readTask taskId fun t => t.rebootRequired

/-- `State.setRequestOptions`. -/
def State.setRequestOptions (s : State) (taskId : String) (reqOpts : JVal) :
    Except String State :=
  s.updateTask taskId fun t => { t with requestOptions := some reqOpts }

/-- `State.getRequestOptions`. -/
def State.getRequestOptions (s : State) (taskId : String) : Except String (Option JVal) :=
  s.readTask taskId fun t => t.requestOptions

/-- `State.setRollbackInfo`: the whole body is guarded by
`if (rollbackInfo)`, so a missing or falsy argument silently does nothing —
even for a task id that does not exist. -/
def State.setRollbackInfo (s : State) (taskId : String) (rollbackInfo : Option JVal) :
    Except String State :=
  match rollbackInfo with
  | some info =>
    if jsTruthy info then s.updateTask taskId fun t => { t with rollbackInfo := some info }
    else .ok s
  | none => .ok s

/-- `State.getRollbackInfo`. -/
def State.getRollbackInfo (s : State) (taskId : String) : Except String (Option JVal) :=
  s.readTask taskId fun t => t.rollbackInfo

/-- `State.setTraceCurrent`. -/
def State.setTraceCurrent (s : State) (taskId : String) (currentConfig : JVal) :
    Except String State :=
  s.updateTask taskId fun t => { t with traceCurrent := some currentConfig }

/-- `State.getTraceCurrent`. -/
def State.getTraceCurrent (s : State) (taskId : String) : Except String (Option JVal) :=
  s.readTask taskId fun t => t.traceCurrent

/-- `State.setTraceDesired`. -/
def State.setTraceDesired (s : State) (taskId : String) (desiredConfig : JVal) :
    Except String State :=
  s.updateTask taskId fun t => { t with traceDesired := some desiredConfig }

/-- `State.getTraceDesired`. -/
def State.getTraceDesired (s : State) (taskId : String) : Except String (Option JVal) :=
  s.readTask taskId fun t => t.traceDesired

/-- `State.setTraceDiff`. -/
def State.setTraceDiff (s : State) (taskId : String) (diff : JVal) : Except String State :=
  s.updateTask taskId fun t => { t with traceDiff := some diff }

/-- `State.getTraceDiff`. -/
def State.getTraceDiff (s : State) (taskId : String) : Except String (Option JVal) :=
  s.readTask taskId fun t => t.traceDiff

/-- `State.getLastUpdate`. -/
def State.getLastUpdate (s : State) (taskId : String) : Except String Int :=
  s.readTask taskId fun t => t.lastUpdate

/-- The `errors` argument of `updateResult` is a single message or an array
of messages. -/
abbrev ErrorsArg := Sum String (List String)

/-- `if (code) { result.code = code; }` in `updateResult` (`0` is falsy). -/
def resultWithCode (code : Option Int) (r : TaskResult) : TaskResult :=
  match code with
  | some c => if c ≠ 0 then { r with code := some c } else r
  | none => r

/-- `if (status) { result.status = status; }` in `updateResult` (the empty
string is falsy). -/
def resultWithStatus (status : Option String) (r : TaskResult) : TaskResult :=
  match status with
  | some st => if st ≠ "" then { r with status := some st } else r
  | none => r

/-- `if (message) { result.message = message; }` in `updateResult`. -/
def resultWithMessage (message : Option String) (r : TaskResult) : TaskResult :=
  match message with
  | some m => if m ≠ "" then { r with message := some m } else r
  | none => r

/-- `if (errors) { ... }` in `updateResult`: initialize `result.errors` if
absent, then concatenate an array argument or push a single (truthy, i.e.
non-empty) message. -/
def resultWithErrors (errors : Option ErrorsArg) (r : TaskResult) : TaskResult :=
  match errors with
  | none => r
  | some (.inl e) =>
    if e ≠ "" then { r with errors := some ((r.errors.getD []) ++ [e]) } else r
  | some (.inr es) => { r with errors := some ((r.errors.getD []) ++ es) }

/-- `State.updateResult`: stamps `lastUpdate`, then applies the four
conditional result updates in the order the code performs them. -/
def State.updateResult (s : State) (taskId : String) (code : Option Int)
    (status : Option String) (message : Option String) (errors : Option ErrorsArg)
    (now : Int) : Except String State :=
  match tlookup taskId s.tasks with
  | none => .error notFound
  | some t =>
    .ok { s with
      tasks := tset taskId
        { t with
          lastUpdate := now,
          result := resultWithErrors errors
            (resultWithMessage message
              (resultWithStatus status (resultWithCode code t.result))) } s.tasks }

/-! ## Persisted-state upgrade (`copyAndUpgradeState`, `updateNewIdToId`)

The upgrade path operates on the raw persisted blob before the typed task
table exists, so it is modelled on `JObj` directly.  Its helpers live outside
the provided sources and are explicit parameters:

* `versionCompare` — `cloudUtil.versionCompare` from the external
  f5-cloud-libs dependency (negative iff the first version is older);
* `doVersionStr` — `${VERSION}-${RELEASE}` from `doUtil.getDoVersion()`
  (src/lib/doUtil.js is not among the provided sources), never empty;
* `updateIds` — modelled from the spec: `parserUtil.updateIds`
  (src/lib/parserUtil.js is not among the provided sources) rewrites the
  property keys of one class's config from the deprecated `newId` scheme to
  the current `id` scheme, given the class name and, for named classes, the
  item name;
* `namelessClasses` — `ConfigManager.getNamelessClasses(configItems)`
  (src/lib/configManager.js and configItems.json are not among the provided
  sources): the classes stored as a single object rather than a name-keyed
  map.
-/

/-- The version recorded on an `originalConfig` entry:
`configById.version || '0.0.0-0'`.  The code only ever writes string
versions, so non-string values fall back to the default as absent ones do. -/
def entryVersion (v : JVal) : String :=
  match getField v "version" with
  | some (.str s) => if s = "" then "0.0.0-0" else s
  | _ => "0.0.0-0"

/-- The per-class body of the migration loop in `updateNewIdToId`: a nameless
class's config is rewritten as one object, a named class's config has each of
its named items rewritten.  `Object.keys` of a non-object iterates nothing. -/
def migrateCommonClass (updateIds : String → JVal → Option String → JVal)
    (namelessClasses : List String) (schemaClass : String) (config : JVal) : JVal :=
  if namelessClasses.contains schemaClass then updateIds schemaClass config none
  else
    match config with
    | .obj items => .obj (items.map fun p => (p.1, updateIds schemaClass p.2 (some p.1)))
    | other => other

/-- One `originalConfig` entry of the `updateNewIdToId` loop: if the recorded
version is older than the running engine's version and the entry has a truthy
`Common`, the entry is re-stamped with the current version and every class
under `Common` is migrated; otherwise the entry is left untouched. -/
def migrateEntry (versionCompare : String → String → Int) (doVersionStr : String)
    (updateIds : String → JVal → Option String → JVal) (namelessClasses : List String)
    (v : JVal) : JVal :=
  if versionCompare (entryVersion v) doVersionStr < 0 then
    match getField v "Common" with
    | some common =>
      if jsTruthy common then
        setField "Common"
          (match common with
           | .obj classes =>
             .obj (classes.map fun p =>
               (p.1, migrateCommonClass updateIds namelessClasses p.1 p.2))
           | other => other)
          (setField "version" (.str doVersionStr) v)
      else v
    | none => v
  else v

/-- `updateNewIdToId`: migrate every entry of `existingState.originalConfig`.
The caller (`copyAndUpgradeState`) guarantees `originalConfig` is an object. -/
def updateNewIdToId (versionCompare : String → String → Int) (doVersionStr : String)
    (updateIds : String → JVal → Option String → JVal) (namelessClasses : List String)
    (st : JObj) : JObj :=
  match tlookup "originalConfig" st with
  | some (.obj entries) =>
    tset "originalConfig"
      (.obj (entries.map fun p =>
        (p.1, migrateEntry versionCompare doVersionStr updateIds namelessClasses p.2)))
      st
  | _ => st

/-- The synthesized task `copyAndUpgradeState` wraps a legacy blob into: a
deep copy of the whole blob, its `lastUpdate` stamped with the load time and
its `id` with the freshly generated task id (in that order). -/
def legacyTaskBlob (freshId : String) (now : Int) (st : JObj) : JObj :=
  tset "id" (.str freshId) (tset "lastUpdate" (.num now) st)

/-- `copyAndUpgradeState`.  The JS generates the fresh task id with
`uuidv4()` and reads the clock; both are explicit arguments.  The final
JSON round-trip deep copy is the identity on values. -/
def copyAndUpgradeState (versionCompare : String → String → Int) (doVersionStr : String)
    (updateIds : String → JVal → Option String → JVal) (namelessClasses : List String)
    (freshId : String) (now : Int) (st : JObj) : JObj :=
  let st1 :=
    if truthyField st "tasks" then st
    else
      tset "mostRecentTask" (.str freshId)
        (tset "tasks" (.obj [(freshId, .obj (legacyTaskBlob freshId now st))]) st)
  let st2 :=
    if truthyField st1 "originalConfig" then st1
    else tset "originalConfig" (.obj []) st1
  updateNewIdToId versionCompare doVersionStr updateIds namelessClasses st2

/-! ## The authentication handler (src/lib/authHandler.js)

The handler's only side effects are calls on the device client (`bigIp`).  A
handler run is modelled as the ordered list of device calls it issues
together with whether its promise resolves.  The environment decides each
call's outcome.  A call appearing later in the trace than another is issued
in a later `.then` stage, i.e. after the earlier call completed; calls
started together by a `Promise.all` are adjacent in the trace and their
relative order carries no temporal meaning.

`PATHS`, `RADIUS` and `AUTH` come from src/lib/sharedConstants.js, which is
not among the provided sources; the paths are modelled as an enumeration and
the two server names and the subclass name with their documented values. -/

/-- Device management API paths used by the authentication handler. -/
inductive DevPath where
  | authRemoteRole
  | authRadiusServer
  /-- `${PATHS.AuthRadiusServer}/~Common~${name}`: one radius server object
  under the Common partition. -/
  | authRadiusServerCommon (name : String)
  | authRadius
  | authTacacs
  | authLdap
  | authSource
  | authRemoteUser
  | sslCert
  | sslKey
  | unixRm
  /-- `${PATHS.Uploads}/${fileName}`. -/
  | uploads (fileName : String)
deriving DecidableEq

/-- `RADIUS.PRIMARY_SERVER`. -/
def RADIUS_PRIMARY_SERVER : String := "radius_1"

/-- `RADIUS.SECONDARY_SERVER`. -/
def RADIUS_SECONDARY_SERVER : String := "radius_2"

/-- `AUTH.SUBCLASSES_NAME`. -/
def AUTH_SUBCLASSES_NAME : String := "system-auth"

/-- One device-client call: the method, the target path, the body and, where
the JS passes an options object, its `silent` flag.  Request headers (used
only by the file upload) are not modelled. -/
inductive DevCall where
  | createOrModify (path : DevPath) (body : JVal) (silent : Bool)
  | create (path : DevPath) (body : JVal) (silent : Bool)
  | modify (path : DevPath) (body : JVal)
  | del (path : DevPath)

/-- The path a device call targets. -/
def DevCall.path : DevCall → DevPath
  | .createOrModify p _ _ => p
  | .create p _ _ => p
  | .modify p _ => p
  | .del p => p

/-- The device environment: whether a given call succeeds when executed. -/
abbrev DevEnv := DevCall → Bool

/-- A promise's observable behavior: the calls it issues, in issue order, and
whether it resolves. -/
abbrev PromiseResult := List DevCall × Bool

/-- Issue one device call. -/
def callDev (env : DevEnv) (c : DevCall) : PromiseResult :=
  ([c], env c)

/-- `a.then(() => b)`: `b`'s calls are issued only after `a` resolved; a
rejection of `a` skips `b` and propagates. -/
def pseq (a b : PromiseResult) : PromiseResult :=
  if a.2 then (a.1 ++ b.1, b.2) else a

/-- `Promise.all`: every branch is started, and the whole resolves iff every
branch does. -/
def pall (rs : List PromiseResult) : PromiseResult :=
  ((rs.map Prod.fst).flatten, rs.all Prod.snd)

/-- `.catch` with a body that does not rethrow: the rejection is swallowed
and the promise resolves. -/
def swallowErr (a : PromiseResult) : PromiseResult :=
  (a.1, true)

/-- `Promise.resolve()`. -/
def resolvedPromise : PromiseResult :=
  ([], true)

/-- One `RemoteAuthRole` entry of the declaration. -/
structure RemoteAuthRoleDecl where
  «attribute» : String
  console : String
  remoteAccess : Bool
  lineOrder : Int
  role : String
  userPartition : String

/-- One RADIUS server of the declaration (`server`, `port`, `secret`). -/
structure RadiusServerDecl where
  server : String
  port : Int
  secret : String

/-- The `servers` object of a RADIUS declaration. -/
structure RadiusServersDecl where
  primary : Option RadiusServerDecl
  secondary : Option RadiusServerDecl

/-- A RADIUS authentication declaration. -/
structure RadiusDecl where
  serviceType : String
  servers : Option RadiusServersDecl

/-- A TACACS authentication declaration. -/
structure TacacsDecl where
  accounting : Option String
  authentication : Option String
  debug : Option Bool
  encryption : Option Bool
  secret : String
  servers : List String
  service : String
  protocol : Option String

/-- A certificate or key of an LDAP declaration: `partition` and `name`
locate an installed object; `base64` carries inline material to install. -/
structure CertDecl where
  partition : String
  name : String
  base64 : Option String

/-- An LDAP authentication declaration. -/
structure LdapDecl where
  bindDn : Option String
  bindPassword : Option String
  bindTimeout : Option Int
  checkBindPassword : Bool
  checkRemoteRole : Bool
  filter : Option String
  groupDn : Option String
  groupMemberAttribute : Option String
  idleTimeout : Option Int
  ignoreAuthInfoUnavailable : Bool
  ignoreUnknownUser : Bool
  loginAttribute : Option String
  port : Option Int
  searchScope : Option String
  searchBaseDn : Option String
  searchTimeout : Option Int
  servers : List String
  ssl : Option String
  sslCaCert : Option CertDecl
  sslCheckPeer : Bool
  sslCiphers : Option (List String)
  sslClientCert : Option CertDecl
  sslClientKey : Option CertDecl
  userTemplate : Option String
  version : Option Int

/-- The `remoteUsersDefaults` object of an Authentication declaration. -/
structure RemoteUsersDefaultsDecl where
  partitionAccess : String
  role : String
  terminalAccess : String

/-- An `Authentication` declaration. -/
structure AuthenticationDecl where
  enabledSourceType : String
  fallback : Option Bool
  remoteUsersDefaults : Option RemoteUsersDefaultsDecl
  radius : Option RadiusDecl
  tacacs : Option TacacsDecl
  ldap : Option LdapDecl

/-- The `Common` tenant of a parsed declaration, restricted to what the
authentication handler reads. -/
structure CommonDecl where
  authentication : Option AuthenticationDecl
  remoteAuthRole : Option (List (String × RemoteAuthRoleDecl))

/-- A parsed declaration, restricted to what the authentication handler
reads. -/
structure DeclarationDecl where
  common : Option CommonDecl

/-- `(this.declaration.Common || {}).Authentication`. -/
def authOf (decl : DeclarationDecl) : Option AuthenticationDecl :=
  match decl.common with
  | some c => c.authentication
  | none => none

/-- A string-or-`'none'` fallback: `x || 'none'` (the empty string is
falsy). -/
def strOrNone : Option String → String
  | some s => if s = "" then "none" else s
  | none => "none"

/-- An optional string property value (`null` models `undefined`). -/
def jstr : Option String → JVal
  | some s => .str s
  | none => .null

/-- An optional number property value (`null` models `undefined`). -/
def jnum : Option Int → JVal
  | some n => .num n
  | none => .null

/-- The body `handleRemoteAuthRoles` builds for one role. -/
def remoteRoleBody (name : String) (decl : RemoteAuthRoleDecl) : JVal :=
  .obj
    [("attribute", .str decl.«attribute»),
     ("console", .str decl.console),
     ("deny", .str (if decl.remoteAccess then "disabled" else "enabled")),
     ("lineOrder", .num decl.lineOrder),
     ("role", .str decl.role),
     ("userPartition", .str decl.userPartition),
     ("name", .str name)]

/-- `handleRemoteAuthRoles`: every declared role is upserted independently
under a `Promise.all`. -/
def handleRemoteAuthRoles (env : DevEnv) (decl : DeclarationDecl) : PromiseResult :=
  match decl.common with
  | none => resolvedPromise
  | some common =>
    match common.remoteAuthRole with
    | none => resolvedPromise
    | some roles =>
      pall (roles.map fun p =>
        callDev env (.createOrModify .authRemoteRole (remoteRoleBody p.1 p.2) false))

/-- The body `handleRadius` sends for one radius server: the declared fields
plus the fixed `name` and `partition` it adds. -/
def radiusServerBody (decl : RadiusServerDecl) (name : String) : JVal :=
  .obj
    [("server", .str decl.server),
     ("port", .num decl.port),
     ("secret", .str decl.secret),
     ("name", .str name),
     ("partition", .str "Common")]

/-- The aggregate RADIUS auth-method body: `name`, `serviceType`, the server
name list and `partition`. -/
def radiusAggBody (serviceType : String) (servers : List String) : JVal :=
  .obj
    [("name", .str AUTH_SUBCLASSES_NAME),
     ("serviceType", .str serviceType),
     ("servers", .arr (servers.map .str)),
     ("partition", .str "Common")]

/-- `handleRadius`: upsert the declared servers under a `Promise.all`, then
upsert the aggregate RADIUS object (silently), then — only when no secondary
is declared — delete the previously-configured secondary server object.  The
`.catch` rethrows, so the result is unchanged by it. -/
def handleRadius (env : DevEnv) (auth : AuthenticationDecl) : PromiseResult :=
  match auth.radius with
  | none => resolvedPromise
  | some radius =>
    match radius.servers with
    | none => resolvedPromise
    | some servers =>
      match servers.primary with
      | none => resolvedPromise
      | some primary =>
        let serverCalls :=
          DevCall.createOrModify .authRadiusServer
              (radiusServerBody primary RADIUS_PRIMARY_SERVER) false ::
            (match servers.secondary with
             | some secondary =>
               [DevCall.createOrModify .authRadiusServer
                 (radiusServerBody secondary RADIUS_SECONDARY_SERVER) false]
             | none => [])
        let authServers :=
          RADIUS_PRIMARY_SERVER ::
            (match servers.secondary with
             | some _ => [RADIUS_SECONDARY_SERVER]
             | none => [])
        pseq (pall (serverCalls.map (callDev env)))
          (pseq
            (callDev env
              (.createOrModify .authRadius (radiusAggBody radius.serviceType authServers) true))
            (match servers.secondary with
             | some _ => resolvedPromise
             | none =>
               callDev env (.del (.authRadiusServerCommon RADIUS_SECONDARY_SERVER))))

/-- The body `handleTacacs` builds, with its fallbacks:
`accounting || 'send-to-first-server'`, `authentication ||
'use-first-server'`, truthiness for `debug`, `=== false` for `encryption`,
and `protocol` only when declared. -/
def tacacsBody (tacacs : TacacsDecl) : JVal :=
  let base :=
    [("name", JVal.str AUTH_SUBCLASSES_NAME),
     ("partition", JVal.str "Common"),
     ("accounting", JVal.str (match tacacs.accounting with
       | some a => if a = "" then "send-to-first-server" else a
       | none => "send-to-first-server")),
     ("authentication", JVal.str (match tacacs.authentication with
       | some a => if a = "" then "use-first-server" else a
       | none => "use-first-server")),
     ("debug", JVal.str (if tacacs.debug = some true then "enabled" else "disabled")),
     ("encryption", JVal.str (if tacacs.encryption = some false then "disabled" else "enabled")),
     ("secret", JVal.str tacacs.secret),
     ("servers", JVal.arr (tacacs.servers.map JVal.str)),
     ("service", JVal.str tacacs.service)]
  .obj
    (match tacacs.protocol with
     | some protocol => base ++ [("protocol", JVal.str protocol)]
     | none => base)

/-- `handleTacacs`: a single upsert whose `.catch` only logs — the error is
swallowed and the step resolves even when the device call fails. -/
def handleTacacs (env : DevEnv) (auth : AuthenticationDecl) : PromiseResult :=
  match auth.tacacs with
  | none => resolvedPromise
  | some tacacs =>
    swallowErr (callDev env (.createOrModify .authTacacs (tacacsBody tacacs) false))

/-- `getCertPath`: `/${partition}/${name}`. -/
def certPathStr (certObj : CertDecl) : String :=
  "/" ++ certObj.partition ++ "/" ++ certObj.name

/-- `uploadCert` inside `handleCert`: upload the decoded material to
`${PATHS.Uploads}/${name}`, silently for a key file (`path.endsWith('.key')`).
`decode` stands for `Buffer.from(data, 'base64').toString().trim()`; request
headers are not modelled. -/
def uploadCertCall (decode : String → String) (certName : String) (certObj : CertDecl) :
    DevCall :=
  .create (.uploads certName) (.str (decode (certObj.base64.getD "")))
    (certName.endsWith ".key")

/-- `createCert` inside `handleCert`: upsert the device file object pointing
at the uploaded temporary. -/
def createCertCall (certName : String) (certPath : DevPath) : DevCall :=
  .createOrModify certPath
    (.obj
      [("name", .str certName),
       ("sourcePath", .str ("file:/var/config/rest/downloads/" ++ certName))]) false

/-- `deleteCert` inside `handleCert`: remove the uploaded temporary through
the util/unix-rm endpoint. -/
def deleteCertCall (certName : String) : DevCall :=
  .create .unixRm
    (.obj
      [("command", .str "run"),
       ("utilCmdArgs", .str ("/var/config/rest/downloads/" ++ certName))]) false

/-- The three calls of a fully successful `handleCert` chain, in order. -/
def certChainCalls (decode : String → String) (certName : String) (certObj : CertDecl)
    (certPath : DevPath) : List DevCall :=
  [uploadCertCall decode certName certObj, createCertCall certName certPath,
   deleteCertCall certName]

/-- `handleCert`: `uploadCert` then `createCert` then `deleteCert`, a
strictly sequential promise chain. -/
def handleCert (env : DevEnv) (decode : String → String) (certName : String)
    (certObj : CertDecl) (certPath : DevPath) : PromiseResult :=
  pseq (callDev env (uploadCertCall decode certName certObj))
    (pseq (callDev env (createCertCall certName certPath))
      (callDev env (deleteCertCall certName)))

/-- One `if (ldap.sslX && ldap.sslX.base64) certPromises.push(...)` guard of
`handleLdap`: the chain for this certificate is queued only when the
declaration carries inline `base64` content for it. -/
def inlineCertOpt (cert : Option CertDecl) (fileName : String) (path : DevPath) :
    List (String × CertDecl × DevPath) :=
  match cert with
  | some c =>
    match c.base64 with
    | some _ => [(fileName, c, path)]
    | none => []
  | none => []

/-- The inline certificate/key material of an LDAP declaration, in the order
`handleLdap` pushes the upload-and-install chains: CA certificate, client
certificate, client key — each only when it carries `base64` content. -/
def inlineCerts (ldap : LdapDecl) : List (String × CertDecl × DevPath) :=
  inlineCertOpt ldap.sslCaCert "do_ldapCaCert.crt" .sslCert ++
  inlineCertOpt ldap.sslClientCert "do_ldapClientCert.crt" .sslCert ++
  inlineCertOpt ldap.sslClientKey "do_ldapClientCert.key" .sslKey

/-- The LDAP auth object body `handleLdap` builds. -/
def ldapBody (ldap : LdapDecl) : JVal :=
  .obj
    [("name", .str AUTH_SUBCLASSES_NAME),
     ("partition", .str "Common"),
     ("bindDn", .str (strOrNone ldap.bindDn)),
     ("bindPw", .str (strOrNone ldap.bindPassword)),
     ("bindTimeout", jnum ldap.bindTimeout),
     ("checkHostAttr", .str (if ldap.checkBindPassword then "enabled" else "disabled")),
     ("checkRolesGroup", .str (if ldap.checkRemoteRole then "enabled" else "disabled")),
     ("filter", .str (strOrNone ldap.filter)),
     ("groupDn", .str (strOrNone ldap.groupDn)),
     ("groupMemberAttribute", .str (strOrNone ldap.groupMemberAttribute)),
     ("idleTimeout", jnum ldap.idleTimeout),
     ("ignoreAuthInfoUnavail", .str (if ldap.ignoreAuthInfoUnavailable then "yes" else "no")),
     ("ignoreUnknownUser", .str (if ldap.ignoreUnknownUser then "enabled" else "disabled")),
     ("loginAttribute", .str (strOrNone ldap.loginAttribute)),
     ("port", jnum ldap.port),
     ("scope", jstr ldap.searchScope),
     ("searchBaseDn", .str (strOrNone ldap.searchBaseDn)),
     ("searchTimeout", jnum ldap.searchTimeout),
     ("servers", .arr (ldap.servers.map .str)),
     ("ssl", jstr ldap.ssl),
     ("sslCaCertFile", .str (match ldap.sslCaCert with
       | some c => certPathStr c
       | none => "none")),
     ("sslCheckPeer", .str (if ldap.sslCheckPeer then "enabled" else "disabled")),
     ("sslCiphers", .str (match ldap.sslCiphers with
       | some cs => String.intercalate ":" cs
       | none => "")),
     ("sslClientCert", .str (match ldap.sslClientCert with
       | some c => certPathStr c
       | none => "none")),
     ("sslClientKey", .str (match ldap.sslClientKey with
       | some c => certPathStr c
       | none => "none")),
     ("userTemplate", .str (strOrNone ldap.userTemplate)),
     ("version", jnum ldap.version)]

/-- The upsert of the LDAP auth object.  Its options are
`ldapObj.bindPw ? { silent: true } : {}`, and `bindPw` is
`bindPassword || 'none'`, hence always truthy. -/
def ldapAuthCall (ldap : LdapDecl) : DevCall :=
  .createOrModify .authLdap (ldapBody ldap) (strOrNone ldap.bindPassword ≠ "")

/-- `handleLdap`: run every inline certificate/key chain under a
`Promise.all`, then upsert the LDAP auth object; the `.catch` rethrows. -/
def handleLdap (env : DevEnv) (decode : String → String) (auth : AuthenticationDecl) :
    PromiseResult :=
  match auth.ldap with
  | none => resolvedPromise
  | some ldap =>
    pseq
      (pall ((inlineCerts ldap).map fun fc => handleCert env decode fc.1 fc.2.1 fc.2.2))
      (callDev env (ldapAuthCall ldap))

/-- `handleSource`: set the authoritative auth source, translating
`activeDirectory` to the device's `active-directory`. -/
def handleSource (env : DevEnv) (auth : AuthenticationDecl) : PromiseResult :=
  callDev env
    (.modify .authSource
      (.obj
        [("type", .str (if auth.enabledSourceType = "activeDirectory" then "active-directory"
          else auth.enabledSourceType)),
         ("fallback", match auth.fallback with
           | some b => .bool b
           | none => .null)]))

/-- `handleRemoteUsersDefaults`. -/
def handleRemoteUsersDefaults (env : DevEnv) (auth : AuthenticationDecl) : PromiseResult :=
  match auth.remoteUsersDefaults with
  | none => resolvedPromise
  | some authDefaults =>
    callDev env
      (.modify .authRemoteUser
        (.obj
          [("defaultPartition", .str authDefaults.partitionAccess),
           ("defaultRole", .str authDefaults.role),
           ("remoteConsoleAccess", .str authDefaults.terminalAccess)]))

/-- `AuthHandler.process`: remote-auth roles alone when no `Authentication`
is declared, otherwise the sequential chain roles → RADIUS → TACACS → LDAP →
source → remote-user defaults. -/
def authProcess (env : DevEnv) (decode : String → String) (decl : DeclarationDecl) :
    PromiseResult :=
  let roles := handleRemoteAuthRoles env decl
  match authOf decl with
  | none => roles
  | some auth =>
    pseq roles
      (pseq (handleRadius env auth)
        (pseq (handleTacacs env auth)
          (pseq (handleLdap env decode auth)
            (pseq (handleSource env auth) (handleRemoteUsersDefaults env auth)))))

/-- The full upload-and-install traffic for every inline certificate/key of
an LDAP declaration, in issue order. -/
def expectedCertTrace (decode : String → String) (ldap : LdapDecl) : List DevCall :=
  ((inlineCerts ldap).map fun fc => certChainCalls decode fc.1 fc.2.1 fc.2.2).flatten

/-! ## Concrete instances used by the closed witness and counterexample
theorems -/

/-- A task created at epoch time 0. -/
def staleTask : Task := { id := "a", lastUpdate := 0 }

/-- A state holding exactly `staleTask` under id `"a"`. -/
def oneTaskState : State :=
  { originalConfig := [], tasks := [("a", staleTask)], mostRecentTask := some "a" }

/-- A task whose result already records one error. -/
def erroredTask : Task :=
  { id := "a", lastUpdate := 0, result := { errors := some ["first error"] } }

/-- A state holding exactly `erroredTask` under id `"a"`. -/
def erroredState : State :=
  { originalConfig := [], tasks := [("a", erroredTask)], mostRecentTask := some "a" }

/-- A declaration carrying an LDAP bind password. -/
def secretDecl : JVal :=
  .obj [("bindPassword", .str "hunter2"), ("searchBaseDn", .str "dc=example")]

/-- An environment where every device call succeeds. -/
def envAllOk : DevEnv := fun _ => true

/-- An environment failing exactly the file uploads. -/
def envFailUploads : DevEnv := fun c =>
  match c.path with
  | .uploads _ => false
  | _ => true

/-- An environment failing exactly the TACACS upsert. -/
def envFailTacacs : DevEnv := fun c =>
  match c.path with
  | .authTacacs => false
  | _ => true

/-- A primary RADIUS server declaration. -/
def demoRadiusServer : RadiusServerDecl :=
  { server := "203.0.113.10", port := 1812, secret := "radsecret" }

/-- A RADIUS declaration with a primary server and no secondary. -/
def demoRadius : RadiusDecl :=
  { serviceType := "authenticate",
    servers := some { primary := some demoRadiusServer, secondary := none } }

/-- An Authentication declaration with only the RADIUS method. -/
def demoRadiusAuth : AuthenticationDecl :=
  { enabledSourceType := "radius", fallback := none, remoteUsersDefaults := none,
    radius := some demoRadius, tacacs := none, ldap := none }

/-- A CA certificate with inline base64 material. -/
def demoCaCert : CertDecl := { partition := "Common", name := "myCa", base64 := some "QUJD" }

/-- An LDAP declaration with one inline CA certificate. -/
def demoLdap : LdapDecl :=
  { bindDn := some "cn=admin", bindPassword := some "hunter2", bindTimeout := some 30,
    checkBindPassword := false, checkRemoteRole := false, filter := none, groupDn := none,
    groupMemberAttribute := none, idleTimeout := some 3600, ignoreAuthInfoUnavailable := false,
    ignoreUnknownUser := false, loginAttribute := none, port := some 636,
    searchScope := some "sub", searchBaseDn := some "dc=example", searchTimeout := some 30,
    servers := ["ldap.example.com"], ssl := some "enabled", sslCaCert := some demoCaCert,
    sslCheckPeer := false, sslCiphers := none, sslClientCert := none, sslClientKey := none,
    userTemplate := none, version := some 3 }

/-- An Authentication declaration with only the LDAP method. -/
def demoLdapAuth : AuthenticationDecl :=
  { enabledSourceType := "ldap", fallback := none, remoteUsersDefaults := none,
    radius := none, tacacs := none, ldap := some demoLdap }

/-- A TACACS declaration. -/
def demoTacacs : TacacsDecl :=
  { accounting := none, authentication := none, debug := none, encryption := none,
    secret := "tacsecret", servers := ["203.0.113.20"], service := "ppp", protocol := none }

/-- A full declaration with only the TACACS method. -/
def demoTacacsDecl : DeclarationDecl :=
  { common := some
      { authentication := some
          { enabledSourceType := "tacacs", fallback := none, remoteUsersDefaults := none,
            radius := none, tacacs := some demoTacacs, ldap := none },
        remoteAuthRole := none } }

/-- A stand-in for `cloudUtil.versionCompare` on concrete inputs. -/
def demoVersionCompare (a b : String) : Int :=
  if a = b then 0 else if a < b then -1 else 1

/-- A stand-in for `parserUtil.updateIds` on concrete inputs. -/
def demoUpdateIds (_schemaClass : String) (config : JVal) (_itemName : Option String) : JVal :=
  config

/-- A concrete running-engine version string. -/
def demoDoVersion : String := "1.27.0-1"

/-- A legacy persisted blob with no `tasks` container and a top-level
`lastUpdate` field. -/
def legacyBlob : JObj := [("lastUpdate", .num 5), ("foo", .str "bar")]

/-- A persisted blob whose original config records an old engine version. -/
def oldVersionState : JObj :=
  [("tasks", .obj []),
   ("originalConfig",
    .obj
      [("machine1",
        .obj
          [("version", .str "1.21.0-1"),
           ("Common", .obj [("System", .obj [("mgmtDhcpEnabled", .bool true)])])])])]

/-! ## Association-list lemmas -/

theorem tlookup_tset_self (k : String) (v : α) (l : List (String × α)) :
    tlookup k (tset k v l) = some v := by
  induction l with
  | nil => simp [tset, tlookup]
  | cons p rest ih =>
    obtain ⟨k', v'⟩ := p
    by_cases h : k' = k
    · simp [tset, h, tlookup]
    · simp [tset, h, tlookup, ih]

theorem tlookup_tset_ne (k k' : String) (v : α) (l : List (String × α)) (h : k' ≠ k) :
    tlookup k (tset k' v l) = tlookup k l := by
  induction l with
  | nil => simp [tset, tlookup, h]
  | cons p rest ih =>
    obtain ⟨k'', v''⟩ := p
    by_cases h2 : k'' = k'
    · subst h2
      simp [tset, tlookup, h, ih]
    · simp [tset, h2, tlookup, ih]

theorem mem_of_tlookup_eq_some {k : String} {v : α} {l : List (String × α)}
    (h : tlookup k l = some v) : (k, v) ∈ l := by
  induction l with
  | nil => simp [tlookup] at h
  | cons p rest ih =>
    obtain ⟨k', v'⟩ := p
    by_cases h2 : k' = k
    · subst h2
      simp [tlookup] at h
      simp [h]
    · simp [tlookup, h2] at h
      exact List.mem_cons_of_mem _ (ih h)

theorem mem_tset_of_mem_ne {k k' : String} {v : α} (v' : α) {l : List (String × α)}
    (hm : (k, v) ∈ l) (h : k ≠ k') : (k, v) ∈ tset k' v' l := by
  induction l with
  | nil => simp at hm
  | cons p rest ih =>
    obtain ⟨k'', v''⟩ := p
    by_cases h2 : k'' = k'
    · subst h2
      rcases List.mem_cons.mp hm with heq | hmem
      · exact absurd (congrArg Prod.fst heq) h
      · simp [tset, List.mem_cons]
        exact Or.inr hmem
    · simp only [tset, if_neg h2]
      rcases List.mem_cons.mp hm with heq | hmem
      · exact heq ▸ List.mem_cons_self _ _
      · exact List.mem_cons_of_mem _ (ih hmem)

theorem eq_or_mem_of_mem_tset {k k' : String} {v v' : α} {l : List (String × α)}
    (hm : (k, v) ∈ tset k' v' l) : (k = k' ∧ v = v') ∨ (k, v) ∈ l := by
  induction l with
  | nil =>
    simp [tset] at hm
    exact Or.inl ⟨hm.1, hm.2⟩
  | cons p rest ih =>
    obtain ⟨k'', v''⟩ := p
    by_cases h2 : k'' = k'
    · simp only [tset, if_pos h2] at hm
      rcases List.mem_cons.mp hm with heq | hmem
      · exact Or.inl ⟨(Prod.ext_iff.mp heq).1, (Prod.ext_iff.mp heq).2⟩
      · exact Or.inr (List.mem_cons_of_mem _ hmem)
    · simp only [tset, if_neg h2] at hm
      rcases List.mem_cons.mp hm with heq | hmem
      · exact Or.inr (heq ▸ List.mem_cons_self _ _)
      · rcases ih hmem with h | h
        · exact Or.inl h
        · exact Or.inr (List.mem_cons_of_mem _ h)

theorem tlookup_eq_of_mem_of_nodup {k : String} {v : α} {l : List (String × α)}
    (hnd : (l.map Prod.fst).Nodup) (hm : (k, v) ∈ l) : tlookup k l = some v := by
  induction l with
  | nil => simp at hm
  | cons p rest ih =>
    obtain ⟨k', v'⟩ := p
    simp only [List.map_cons, List.nodup_cons] at hnd
    rcases List.mem_cons.mp hm with heq | hmem
    · obtain ⟨h1, h2⟩ := Prod.mk.injEq .. ▸ heq.symm
      simp [tlookup, h1, h2]
    · by_cases h2 : k' = k
      · exact absurd (h2 ▸ List.mem_map_of_mem Prod.fst hmem) hnd.1
      · simp only [tlookup, if_neg h2]
        exact ih hnd.2 hmem

theorem tlookup_filter_tset (k : String) (v : α) (l : List (String × α))
    (p : String × α → Bool) (hp : p (k, v) = true) :
    tlookup k ((tset k v l).filter p) = some v := by
  induction l with
  | nil => simp [tset, List.filter, hp, tlookup]
  | cons q rest ih =>
    obtain ⟨k', v'⟩ := q
    by_cases h : k' = k
    · simp [tset, h, List.filter, hp, tlookup]
    · simp only [tset, if_neg h]
      cases hq : p (k', v') with
      | true => simp [List.filter_cons, hq, tlookup, h, ih]
      | false => simp [List.filter_cons, hq, ih]

theorem tset_tset_self (k : String) (v v' : α) (l : List (String × α)) :
    tset k v (tset k v' l) = tset k v l := by
  induction l with
  | nil => simp [tset]
  | cons p rest ih =>
    obtain ⟨k', v''⟩ := p
    by_cases h : k' = k
    · simp [tset, h]
    · simp [tset, h, ih]

/-! ## C10 — the task `addTask` just created -/

/-- C10: `addTask` returns the fresh id, records it as `mostRecentTask`, and
stores under it a task with an empty result object, an empty internal
declaration and `lastUpdate` equal to the current time; the purge `addTask`
triggers never removes the task just added, so the fresh id is among the
task ids and `mostRecentTask` refers to an existing task. -/
theorem addTask_fresh_task_state (s : State) (taskId : String) (now : Int) :
    (s.addTask taskId now).1 = taskId ∧
    (s.addTask taskId now).2.mostRecentTask = some taskId ∧
    (s.addTask taskId now).2.getTask taskId =
      some { id := taskId, lastUpdate := now, result := {}, internalDeclaration := .obj [] } ∧
    taskId ∈ (s.addTask taskId now).2.getTaskIds := by
  have hkeep : (fun p : String × Task => !(decide (now - p.2.lastUpdate > taskMaxAge)))
      (taskId, newTask taskId now) = true := by
    simp only [newTask, Bool.not_eq_true']
    simp only [decide_eq_false_iff_not, not_lt]
    simp [taskMaxAge, TASK_RETENTION_DAYS]
  have hlk : (s.addTask taskId now).2.getTask taskId = some (newTask taskId now) := by
    show tlookup taskId (cleanupOldTasks now (tset taskId (newTask taskId now) s.tasks)) = _
    unfold cleanupOldTasks
    exact tlookup_filter_tset _ _ _ _ hkeep
  refine ⟨rfl, rfl, hlk, ?_⟩
  show taskId ∈ (cleanupOldTasks now (tset taskId (newTask taskId now) s.tasks)).map Prod.fst
  exact List.mem_map_of_mem Prod.fst (mem_of_tlookup_eq_some hlk)

/-! ## C1 — retention on `addTask` -/

/-- C1: after any `addTask` (with a fresh id distinct from the stored one),
a stored task whose `lastUpdate` is more than 7 days before the current time
is absent from `getTaskIds`, and a stored task whose `lastUpdate` is within
7 days of the current time is retained. -/
theorem addTask_retention (s : State) (staleId freshId : String) (t : Task) (now : Int)
    (hnd : (s.tasks.map Prod.fst).Nodup)
    (hlk : tlookup staleId s.tasks = some t)
    (hne : freshId ≠ staleId) :
    (now - t.lastUpdate > taskMaxAge → staleId ∉ (s.addTask freshId now).2.getTaskIds) ∧
    (now - t.lastUpdate ≤ taskMaxAge → staleId ∈ (s.addTask freshId now).2.getTaskIds) := by
  constructor
  · intro hold hmem
    have hmem' : staleId ∈ (cleanupOldTasks now (tset freshId (newTask freshId now)
        s.tasks)).map Prod.fst := hmem
    obtain ⟨⟨k, w⟩, hmf, hk⟩ := List.mem_map.mp hmem'
    cases hk
    obtain ⟨hmt, hkeep⟩ := List.mem_filter.mp hmf
    rcases eq_or_mem_of_mem_tset hmt with ⟨heq, _⟩ | hmt'
    · exact hne heq.symm
    · have hw : w = t := by
        have := tlookup_eq_of_mem_of_nodup hnd hmt'
        rw [hlk] at this
        exact (Option.some.inj this).symm
      subst hw
      rw [Bool.not_eq_true', decide_eq_false_iff_not] at hkeep
      exact hkeep hold
  · intro hle
    have hm : (staleId, t) ∈ s.tasks := mem_of_tlookup_eq_some hlk
    have hm2 : (staleId, t) ∈ tset freshId (newTask freshId now) s.tasks :=
      mem_tset_of_mem_ne _ hm (Ne.symm hne)
    have hkeep : (fun p : String × Task => !(decide (now - p.2.lastUpdate > taskMaxAge)))
        (staleId, t) = true := by
      simp only [Bool.not_eq_true', decide_eq_false_iff_not, not_lt]
      exact hle
    show staleId ∈ (cleanupOldTasks now (tset freshId (newTask freshId now)
      s.tasks)).map Prod.fst
    exact List.mem_map_of_mem Prod.fst (List.mem_filter.mpr ⟨hm2, hkeep⟩)

/-- Witness for C1 at a concrete state: a task last updated at time 0 is
purged by an `addTask` 7 days + 1 ms later, and retained by an `addTask` at
time 0. -/
theorem addTask_retention_witness :
    ((oneTaskState.tasks.map Prod.fst).Nodup ∧
      tlookup "a" oneTaskState.tasks = some staleTask ∧ ("b" : String) ≠ "a" ∧
      taskMaxAge + 1 - staleTask.lastUpdate > taskMaxAge ∧
      (0 : Int) - staleTask.lastUpdate ≤ taskMaxAge) ∧
    "a" ∉ (oneTaskState.addTask "b" (taskMaxAge + 1)).2.getTaskIds ∧
    "a" ∈ (oneTaskState.addTask "b" 0).2.getTaskIds := by
  have h1 : (oneTaskState.tasks.map Prod.fst).Nodup := by
    simp [oneTaskState]
  have h2 : tlookup "a" oneTaskState.tasks = some staleTask := rfl
  have h3 : ("b" : String) ≠ "a" := by decide
  have h4 : taskMaxAge + 1 - staleTask.lastUpdate > taskMaxAge := by
    simp [staleTask]
  have h5 : (0 : Int) - staleTask.lastUpdate ≤ taskMaxAge := by
    simp [staleTask, taskMaxAge, TASK_RETENTION_DAYS]
  exact ⟨⟨h1, h2, h3, h4, h5⟩,
    (addTask_retention oneTaskState "a" "b" staleTask (taskMaxAge + 1) h1 h2 h3).1 h4,
    (addTask_retention oneTaskState "a" "b" staleTask 0 h1 h2 h3).2 h5⟩

/-! ## C2 — accessors on a missing task id -/

/-- C2 counterexample: the claim says every read and write accessor —
`getTask` explicitly included — fails with a not-found condition on an
unknown task id, and that no accessor silently returns a default value or
silently does nothing.  On the code, for the unknown id `"a"`: `getTask`
returns `undefined` (no failure), and `setRollbackInfo` with a falsy
`rollbackInfo` resolves without doing anything (no failure). -/
theorem accessors_notfound_cex :
    tlookup "a" State.initial.tasks = none ∧
    State.initial.getTask "a" = none ∧
    State.initial.setRollbackInfo "a" none = .ok State.initial :=
  ⟨rfl, rfl, rfl⟩

/-- C2 (amended): for a missing task id, every keyed accessor that performs
an effect or reads a task field throws `taskId does not exist` — except that
`getTask` returns `undefined` instead of failing, and `setRollbackInfo`
silently does nothing when its payload is falsy (it throws only for a truthy
payload). -/
theorem accessors_notfound (s : State) (taskId : String) (cfg : JVal) (code : Int)
    (msg stat : String) (errsOpt : Option (List String)) (decl : JVal) (rb : Bool)
    (ro rbi trc trd tdf : JVal) (urCode : Option Int) (urStat urMsg : Option String)
    (urErrs : Option ErrorsArg) (now : Int)
    (hlk : tlookup taskId s.tasks = none) (hrbi : jsTruthy rbi = true) :
    s.getTask taskId = none ∧
    s.getCurrentConfig taskId = .error notFound ∧
    s.setCurrentConfig taskId cfg = .error notFound ∧
    s.getOriginalConfigByTaskId taskId = .error notFound ∧
    s.setCode taskId code = .error notFound ∧
    s.getCode taskId = .error notFound ∧
    s.setMessage taskId msg = .error notFound ∧
    s.getMessage taskId = .error notFound ∧
    s.setStatus taskId stat = .error notFound ∧
    s.getStatus taskId = .error notFound ∧
    s.setErrors taskId errsOpt = .error notFound ∧
    s.getErrors taskId = .error notFound ∧
    s.setDeclaration taskId decl = .error notFound ∧
    s.getDeclaration taskId = .error notFound ∧
    s.setRebootRequired taskId rb = .error notFound ∧
    s.getRebootRequired taskId = .error notFound ∧
    s.setRequestOptions taskId ro = .error notFound ∧
    s.getRequestOptions taskId = .error notFound ∧
    s.setRollbackInfo taskId (some rbi) = .error notFound ∧
    s.getRollbackInfo taskId = .error notFound ∧
    s.setTraceCurrent taskId trc = .error notFound ∧
    s.getTraceCurrent taskId = .error notFound ∧
    s.setTraceDesired taskId trd = .error notFound ∧
    s.getTraceDesired taskId = .error notFound ∧
    s.setTraceDiff taskId tdf = .error notFound ∧
    s.getTraceDiff taskId = .error notFound ∧
    s.getLastUpdate taskId = .error notFound ∧
    s.updateResult taskId urCode urStat urMsg urErrs now = .error notFound ∧
    s.setRollbackInfo taskId none = .ok s := by
  simp [State.getTask, State.getCurrentConfig, State.setCurrentConfig,
    State.getOriginalConfigByTaskId, State.setCode, State.getCode, State.setMessage,
    State.getMessage, State.setStatus, State.getStatus, State.setErrors, State.getErrors,
    State.setDeclaration, State.getDeclaration, State.setRebootRequired,
    State.getRebootRequired, State.setRequestOptions, State.getRequestOptions,
    State.setRollbackInfo, State.getRollbackInfo, State.setTraceCurrent,
    State.getTraceCurrent, State.setTraceDesired, State.getTraceDesired,
    State.setTraceDiff, State.getTraceDiff, State.getLastUpdate, State.updateResult,
    State.readTask, State.updateTask, hlk, hrbi]

/-- Witness for C2 at concrete inputs: the empty state and the unknown id
`"a"`. -/
theorem accessors_notfound_witness :
    State.initial.getTask "a" = none ∧
    State.initial.getCurrentConfig "a" = .error notFound ∧
    State.initial.setCurrentConfig "a" (.num 1) = .error notFound ∧
    State.initial.getOriginalConfigByTaskId "a" = .error notFound ∧
    State.initial.setCode "a" 2 = .error notFound ∧
    State.initial.getCode "a" = .error notFound ∧
    State.initial.setMessage "a" "m" = .error notFound ∧
    State.initial.getMessage "a" = .error notFound ∧
    State.initial.setStatus "a" "st" = .error notFound ∧
    State.initial.getStatus "a" = .error notFound ∧
    State.initial.setErrors "a" (some ["e"]) = .error notFound ∧
    State.initial.getErrors "a" = .error notFound ∧
    State.initial.setDeclaration "a" (.obj []) = .error notFound ∧
    State.initial.getDeclaration "a" = .error notFound ∧
    State.initial.setRebootRequired "a" true = .error notFound ∧
    State.initial.getRebootRequired "a" = .error notFound ∧
    State.initial.setRequestOptions "a" (.obj []) = .error notFound ∧
    State.initial.getRequestOptions "a" = .error notFound ∧
    State.initial.setRollbackInfo "a" (some (.obj [("k", .num 1)])) = .error notFound ∧
    State.initial.getRollbackInfo "a" = .error notFound ∧
    State.initial.setTraceCurrent "a" (.num 1) = .error notFound ∧
    State.initial.getTraceCurrent "a" = .error notFound ∧
    State.initial.setTraceDesired "a" (.num 2) = .error notFound ∧
    State.initial.getTraceDesired "a" = .error notFound ∧
    State.initial.setTraceDiff "a" (.num 3) = .error notFound ∧
    State.initial.getTraceDiff "a" = .error notFound ∧
    State.initial.getLastUpdate "a" = .error notFound ∧
    State.initial.updateResult "a" (some 4) (some "s") (some "m") (some (.inl "e")) 99 =
      .error notFound ∧
    State.initial.setRollbackInfo "a" none = .ok State.initial :=
  accessors_notfound State.initial "a" (.num 1) 2 "m" "st" (some ["e"]) (.obj []) true
    (.obj []) (.obj [("k", .num 1)]) (.num 1) (.num 2) (.num 3) (some 4) (some "s")
    (some "m") (some (.inl "e")) 99 rfl rfl

/-! ## C8 — declarations are stored masked -/

mutual

theorem maskedOk_mask (v : JVal) : maskedOk (mask v) = true := by
  cases v with
  | null => rfl
  | bool b => rfl
  | num n => rfl
  | str s => rfl
  | arr elems => simpa [mask, maskedOk] using maskedOkList_maskList elems
  | obj fields => simpa [mask, maskedOk] using maskedOkFields_maskFields fields

theorem maskedOkList_maskList (l : List JVal) : maskedOkList (maskList l) = true := by
  cases l with
  | nil => rfl
  | cons v rest =>
    simp [maskList, maskedOkList, maskedOk_mask v, maskedOkList_maskList rest]

theorem maskedOkFields_maskFields (l : List (String × JVal)) :
    maskedOkFields (maskFields l) = true := by
  cases l with
  | nil => rfl
  | cons p rest =>
    obtain ⟨k, v⟩ := p
    cases h : SECRET_KEYS.contains k with
    | true =>
      simp only [maskFields]
      rw [if_pos h]
      simp only [maskedOkFields]
      rw [if_pos h]
      simp [isRedactedStr, maskedOkFields_maskFields rest]
    | false =>
      have hne : ¬(SECRET_KEYS.contains k = true) := fun hc => by
        rw [h] at hc
        exact Bool.noConfusion hc
      simp only [maskFields]
      rw [if_neg hne]
      simp only [maskedOkFields]
      rw [if_neg hne]
      simp [maskedOk_mask v, maskedOkFields_maskFields rest]

end

/-- C8: storing a declaration with `setDeclaration` succeeds for an existing
task, and the stored declaration returned by `getDeclaration` is the masked
document: every secret-bearing property (`password`, `bindPassword`,
`secret`) anywhere in it holds the redaction marker, not the raw value. -/
theorem setDeclaration_stores_masked (s : State) (taskId : String) (t : Task) (d : JVal)
    (hlk : tlookup taskId s.tasks = some t) :
    ∃ s', s.setDeclaration taskId d = .ok s' ∧
      s'.getDeclaration taskId = .ok (mask d) ∧
      maskedOk (mask d) = true := by
  refine ⟨{ s with tasks := tset taskId { t with internalDeclaration := mask d } s.tasks },
    ?_, ?_, maskedOk_mask d⟩
  · simp [State.setDeclaration, State.updateTask, hlk]
  · simp [State.getDeclaration, State.readTask, tlookup_tset_self]

/-- Witness for C8 at a concrete state and a declaration carrying an LDAP
bind password. -/
theorem setDeclaration_stores_masked_witness :
    tlookup "a" oneTaskState.tasks = some staleTask ∧
    (∃ s', oneTaskState.setDeclaration "a" secretDecl = .ok s' ∧
      s'.getDeclaration "a" = .ok (mask secretDecl) ∧
      maskedOk (mask secretDecl) = true) ∧
    mask secretDecl =
      .obj [("bindPassword", .str REDACTED), ("searchBaseDn", .str "dc=example")] :=
  ⟨rfl, setDeclaration_stores_masked oneTaskState "a" staleTask secretDecl rfl, rfl⟩

/-! ## C9 — accumulation of result errors -/

theorem resultWithCode_errors (code : Option Int) (r : TaskResult) :
    (resultWithCode code r).errors = r.errors := by
  cases code with
  | none => rfl
  | some c =>
    by_cases h : c ≠ 0
    · simp [resultWithCode, h]
    · simp [resultWithCode, h]

theorem resultWithStatus_errors (stat : Option String) (r : TaskResult) :
    (resultWithStatus stat r).errors = r.errors := by
  cases stat with
  | none => rfl
  | some st =>
    by_cases h : st ≠ ""
    · simp [resultWithStatus, h]
    · simp [resultWithStatus, h]

theorem resultWithMessage_errors (msg : Option String) (r : TaskResult) :
    (resultWithMessage msg r).errors = r.errors := by
  cases msg with
  | none => rfl
  | some m =>
    by_cases h : m ≠ ""
    · simp [resultWithMessage, h]
    · simp [resultWithMessage, h]

/-- C9 counterexample: the claim says every error-recording operation
accumulates, with previously recorded errors never silently overwritten.
`setErrors` — one of the error-recording accessors — replaces the stored
array wholesale: after recording `"first error"`, a `setErrors` with
`["second error"]` leaves a result in which `"first error"` is gone. -/
theorem setErrors_overwrites_cex :
    erroredState.getErrors "a" = .ok (some ["first error"]) ∧
    (erroredState.setErrors "a" (some ["second error"])).map
        (fun s' => s'.getErrors "a") = .ok (.ok (some ["second error"])) ∧
    "first error" ∉ ["second error"] := by
  refine ⟨rfl, rfl, ?_⟩
  simp

/-- C9 (amended): `updateResult` accumulates — for an existing task whose
result already records errors, every previously recorded error is still in
`result.errors` after any `updateResult` call, whatever its arguments.
(`setErrors`, by contrast, replaces the stored array wholesale, as the
counterexample shows.) -/
theorem updateResult_accumulates (s : State) (taskId : String) (t : Task)
    (prior : List String) (code : Option Int) (stat msg : Option String)
    (errs : Option ErrorsArg) (now : Int)
    (hlk : tlookup taskId s.tasks = some t)
    (hprior : t.result.errors = some prior) :
    ∃ t', s.updateResult taskId code stat msg errs now =
        .ok { s with tasks := tset taskId t' s.tasks } ∧
      ∃ current, t'.result.errors = some current ∧ ∀ e ∈ prior, e ∈ current := by
  simp only [State.updateResult, hlk]
  refine ⟨_, rfl, ?_⟩
  have hre : (resultWithMessage msg (resultWithStatus stat
      (resultWithCode code t.result))).errors = some prior := by
    rw [resultWithMessage_errors, resultWithStatus_errors, resultWithCode_errors, hprior]
  rcases errs with _ | e | es
  · refine ⟨prior, ?_, fun x hx => hx⟩
    simpa [resultWithErrors] using hre
  · by_cases h : e ≠ ""
    · refine ⟨prior ++ [e], ?_, fun x hx => List.mem_append_left _ hx⟩
      simp only [resultWithErrors]
      rw [if_pos h]
      simp [hre]
    · refine ⟨prior, ?_, fun x hx => hx⟩
      simp only [resultWithErrors]
      rw [if_neg h]
      exact hre
  · refine ⟨prior ++ es, ?_, fun x hx => List.mem_append_left _ hx⟩
    simp only [resultWithErrors]
    simp [hre]

/-- Witness for C9 at a concrete state: updating the result of a task that
already records `"first error"` with a further error keeps the first one. -/
theorem updateResult_accumulates_witness :
    tlookup "a" erroredState.tasks = some erroredTask ∧
    erroredTask.result.errors = some ["first error"] ∧
    (∃ t', erroredState.updateResult "a" (some 500) (some "ERROR") (some "failed")
        (some (.inl "second error")) 7 = .ok { erroredState with
          tasks := tset "a" t' erroredState.tasks } ∧
      ∃ current, t'.result.errors = some current ∧
        ∀ e ∈ ["first error"], e ∈ current) :=
  ⟨rfl, rfl,
    updateResult_accumulates erroredState "a" erroredTask ["first error"] (some 500)
      (some "ERROR") (some "failed") (some (.inl "second error")) 7 rfl rfl⟩

/-! ## C6 — wrapping a legacy persisted blob -/

theorem tlookup_updateNewIdToId (vc : String → String → Int) (dv : String)
    (ui : String → JVal → Option String → JVal) (nc : List String) (st : JObj)
    (k : String) (hk : k ≠ "originalConfig") :
    tlookup k (updateNewIdToId vc dv ui nc st) = tlookup k st := by
  cases h : tlookup "originalConfig" st with
  | none => simp only [updateNewIdToId, h]
  | some v =>
    cases v with
    | obj entries =>
      simp only [updateNewIdToId, h]
      exact tlookup_tset_ne k "originalConfig" _ st (Ne.symm hk)
    | null => simp only [updateNewIdToId, h]
    | bool b => simp only [updateNewIdToId, h]
    | num n => simp only [updateNewIdToId, h]
    | str s => simp only [updateNewIdToId, h]
    | arr a => simp only [updateNewIdToId, h]

/-- C6 counterexample: the claim says the synthesized task's content includes
a copy of the entire legacy blob, with no field of the legacy state
discarded.  But `copyAndUpgradeState` overwrites the copy's `lastUpdate` (and
`id`): wrapping the legacy blob `{lastUpdate: 5, foo: "bar"}` at load time 6
yields a task whose `lastUpdate` is 6, not the legacy value 5. -/
theorem copyAndUpgradeState_overwrites_cex :
    tlookup "lastUpdate" legacyBlob = some (.num 5) ∧
    tlookup "tasks"
        (copyAndUpgradeState demoVersionCompare demoDoVersion demoUpdateIds [] "t1" 6
          legacyBlob) =
      some (.obj [("t1",
        .obj [("lastUpdate", .num 6), ("foo", .str "bar"), ("id", .str "t1")])]) ∧
    JVal.num 6 ≠ JVal.num 5 := by
  refine ⟨rfl, rfl, fun he => ?_⟩
  injection he with h
  exact absurd h (by decide)

/-- C6 (amended): loading a persisted blob with no (truthy) `tasks` container
synthesizes exactly one task recorded as `mostRecentTask`, whose content is
the legacy blob with every field preserved except `lastUpdate` and `id`,
which are overwritten with the load time and the freshly generated task
id. -/
theorem copyAndUpgradeState_wraps_legacy (vc : String → String → Int) (dv : String)
    (ui : String → JVal → Option String → JVal) (nc : List String)
    (freshId : String) (now : Int) (st : JObj)
    (h : truthyField st "tasks" = false) :
    tlookup "tasks" (copyAndUpgradeState vc dv ui nc freshId now st) =
      some (.obj [(freshId, .obj (legacyTaskBlob freshId now st))]) ∧
    tlookup "mostRecentTask" (copyAndUpgradeState vc dv ui nc freshId now st) =
      some (.str freshId) ∧
    tlookup "id" (legacyTaskBlob freshId now st) = some (.str freshId) ∧
    tlookup "lastUpdate" (legacyTaskBlob freshId now st) = some (.num now) ∧
    (∀ k v, k ≠ "id" → k ≠ "lastUpdate" → tlookup k st = some v →
      tlookup k (legacyTaskBlob freshId now st) = some v) := by
  have hcond : ¬(truthyField st "tasks" = true) := fun hc => by
    rw [h] at hc
    exact Bool.noConfusion hc
  have hwrap : ∀ k, k ≠ "originalConfig" →
      tlookup k (copyAndUpgradeState vc dv ui nc freshId now st) =
        tlookup k (tset "mostRecentTask" (.str freshId)
          (tset "tasks" (.obj [(freshId, .obj (legacyTaskBlob freshId now st))]) st)) := by
    intro k hk
    simp only [copyAndUpgradeState]
    rw [if_neg hcond]
    rw [tlookup_updateNewIdToId vc dv ui nc _ k hk]
    split
    · rfl
    · exact tlookup_tset_ne k "originalConfig" _ _ (Ne.symm hk)
  refine ⟨?_, ?_, ?_, ?_, ?_⟩
  · rw [hwrap "tasks" (by decide)]
    rw [tlookup_tset_ne _ "mostRecentTask" _ _ (by decide)]
    exact tlookup_tset_self _ _ _
  · rw [hwrap "mostRecentTask" (by decide)]
    exact tlookup_tset_self _ _ _
  · exact tlookup_tset_self _ _ _
  · unfold legacyTaskBlob
    rw [tlookup_tset_ne _ "id" _ _ (by decide)]
    exact tlookup_tset_self _ _ _
  · intro k v hk1 hk2 hlk
    unfold legacyTaskBlob
    rw [tlookup_tset_ne _ "id" _ _ (Ne.symm hk1),
      tlookup_tset_ne _ "lastUpdate" _ _ (Ne.symm hk2)]
    exact hlk

/-- Witness for C6 at the concrete legacy blob `{lastUpdate: 5, foo: "bar"}`:
its `foo` field is preserved in the synthesized task's content. -/
theorem copyAndUpgradeState_wraps_legacy_witness :
    truthyField legacyBlob "tasks" = false ∧
    tlookup "tasks"
        (copyAndUpgradeState demoVersionCompare demoDoVersion demoUpdateIds [] "t1" 6
          legacyBlob) =
      some (.obj [("t1", .obj (legacyTaskBlob "t1" 6 legacyBlob))]) ∧
    tlookup "mostRecentTask"
        (copyAndUpgradeState demoVersionCompare demoDoVersion demoUpdateIds [] "t1" 6
          legacyBlob) =
      some (.str "t1") ∧
    tlookup "foo" (legacyTaskBlob "t1" 6 legacyBlob) = some (.str "bar") := by
  have h : truthyField legacyBlob "tasks" = false := rfl
  have hw := copyAndUpgradeState_wraps_legacy demoVersionCompare demoDoVersion demoUpdateIds
    [] "t1" 6 legacyBlob h
  exact ⟨h, hw.1, hw.2.1, hw.2.2.2.2 "foo" (.str "bar") (by decide) (by decide) rfl⟩

/-! ## C7 — idempotence of the identifier-scheme migration -/

theorem migrateEntry_idem (vc : String → String → Int) (dv : String)
    (ui : String → JVal → Option String → JVal) (nc : List String)
    (hrefl : ¬ vc dv dv < 0) (hne : dv ≠ "") (v : JVal) :
    migrateEntry vc dv ui nc (migrateEntry vc dv ui nc v) = migrateEntry vc dv ui nc v := by
  by_cases h1 : vc (entryVersion v) dv < 0
  · cases hc : getField v "Common" with
    | none =>
      have hv : migrateEntry vc dv ui nc v = v := by
        simp only [migrateEntry]
        rw [if_pos h1, hc]
      rw [hv]
      exact hv
    | some common =>
      by_cases ht : jsTruthy common = true
      · obtain ⟨fs, rfl⟩ : ∃ fs, v = .obj fs := by
          cases v with
          | obj fs => exact ⟨fs, rfl⟩
          | null => simp [getField] at hc
          | bool b => simp [getField] at hc
          | num n => simp [getField] at hc
          | str s => simp [getField] at hc
          | arr a => simp [getField] at hc
        set migratedCommon :=
          (match common with
           | .obj classes =>
             JVal.obj (classes.map fun p : String × JVal =>
               (p.1, migrateCommonClass ui nc p.1 p.2))
           | other => other) with hmc
        have hfv : migrateEntry vc dv ui nc (.obj fs) =
            .obj (tset "Common" migratedCommon (tset "version" (.str dv) fs)) := by
          simp only [migrateEntry]
          rw [if_pos h1]
          simp only [hc]
          rw [if_pos ht]
          simp [setField]
        rw [hfv]
        have hev : entryVersion
            (.obj (tset "Common" migratedCommon (tset "version" (.str dv) fs))) = dv := by
          simp only [entryVersion, getField]
          rw [tlookup_tset_ne _ "Common" _ _ (by decide), tlookup_tset_self]
          simp [hne]
        simp only [migrateEntry]
        rw [hev]
        rw [if_neg hrefl]
      · have hv : migrateEntry vc dv ui nc v = v := by
          simp only [migrateEntry]
          rw [if_pos h1]
          simp only [hc]
          rw [if_neg ht]
        rw [hv]
        exact hv
  · have hv : migrateEntry vc dv ui nc v = v := by
      simp only [migrateEntry]
      rw [if_neg h1]
    rw [hv]
    exact hv

/-- C7: the identifier-scheme migration is idempotent — an entry whose
recorded version is not older than the running engine's version is left
untouched, and applying `updateNewIdToId` to an already-migrated state
changes nothing, because a migrated entry was re-stamped with the current
version.  Holds for every choice of the external helpers, given that the
version comparison does not call the current version older than itself and
that the current version string is non-empty. -/
theorem updateNewIdToId_idem (vc : String → String → Int) (dv : String)
    (ui : String → JVal → Option String → JVal) (nc : List String)
    (hrefl : ¬ vc dv dv < 0) (hne : dv ≠ "") (st : JObj) :
    (∀ v : JVal, ¬ vc (entryVersion v) dv < 0 → migrateEntry vc dv ui nc v = v) ∧
    updateNewIdToId vc dv ui nc (updateNewIdToId vc dv ui nc st) =
      updateNewIdToId vc dv ui nc st := by
  constructor
  · intro v hv
    simp only [migrateEntry]
    rw [if_neg hv]
  · cases h : tlookup "originalConfig" st with
    | none =>
      have h0 : updateNewIdToId vc dv ui nc st = st := by
        simp only [updateNewIdToId, h]
      rw [h0]
      exact h0
    | some v =>
      cases v with
      | obj entries =>
        have h0 : updateNewIdToId vc dv ui nc st =
            tset "originalConfig"
              (.obj (entries.map fun p => (p.1, migrateEntry vc dv ui nc p.2))) st := by
          simp only [updateNewIdToId, h]
        rw [h0]
        have h1 : tlookup "originalConfig"
            (tset "originalConfig"
              (.obj (entries.map fun p => (p.1, migrateEntry vc dv ui nc p.2))) st) =
            some (.obj (entries.map fun p => (p.1, migrateEntry vc dv ui nc p.2))) :=
          tlookup_tset_self _ _ _
        have h2 : (entries.map fun p => (p.1, migrateEntry vc dv ui nc p.2)).map
              (fun p => (p.1, migrateEntry vc dv ui nc p.2)) =
            entries.map fun p => (p.1, migrateEntry vc dv ui nc p.2) := by
          rw [List.map_map]
          apply List.map_congr_left
          intro p _
          simp [Function.comp, migrateEntry_idem vc dv ui nc hrefl hne p.2]
        have h3 : updateNewIdToId vc dv ui nc
            (tset "originalConfig"
              (.obj (entries.map fun p => (p.1, migrateEntry vc dv ui nc p.2))) st) =
            tset "originalConfig"
              (.obj ((entries.map fun p => (p.1, migrateEntry vc dv ui nc p.2)).map
                (fun p => (p.1, migrateEntry vc dv ui nc p.2))))
              (tset "originalConfig"
                (.obj (entries.map fun p => (p.1, migrateEntry vc dv ui nc p.2))) st) := by
          simp only [updateNewIdToId, h1]
        rw [h3, h2, tset_tset_self]
      | null =>
        have h0 : updateNewIdToId vc dv ui nc st = st := by
          simp only [updateNewIdToId, h]
        rw [h0]
        exact h0
      | bool b =>
        have h0 : updateNewIdToId vc dv ui nc st = st := by
          simp only [updateNewIdToId, h]
        rw [h0]
        exact h0
      | num n =>
        have h0 : updateNewIdToId vc dv ui nc st = st := by
          simp only [updateNewIdToId, h]
        rw [h0]
        exact h0
      | str s =>
        have h0 : updateNewIdToId vc dv ui nc st = st := by
          simp only [updateNewIdToId, h]
        rw [h0]
        exact h0
      | arr a =>
        have h0 : updateNewIdToId vc dv ui nc st = st := by
          simp only [updateNewIdToId, h]
        rw [h0]
        exact h0

/-- Witness for C7 at a concrete persisted blob recording an old version,
with concrete stand-ins for the external helpers. -/
theorem updateNewIdToId_idem_witness :
    (¬ demoVersionCompare demoDoVersion demoDoVersion < 0) ∧ demoDoVersion ≠ "" ∧
    updateNewIdToId demoVersionCompare demoDoVersion demoUpdateIds ["System"]
        (updateNewIdToId demoVersionCompare demoDoVersion demoUpdateIds ["System"]
          oldVersionState) =
      updateNewIdToId demoVersionCompare demoDoVersion demoUpdateIds ["System"]
        oldVersionState := by
  have h1 : ¬ demoVersionCompare demoDoVersion demoDoVersion < 0 := by decide
  have h2 : demoDoVersion ≠ "" := by decide
  exact ⟨h1, h2,
    (updateNewIdToId_idem demoVersionCompare demoDoVersion demoUpdateIds ["System"] h1 h2
      oldVersionState).2⟩

/-! ## C3 — RADIUS: the stale secondary is deleted only after the aggregate -/

/-- C3: in `handleRadius`, for a declaration with a primary server and no
secondary, any delete issued in the run comes strictly after the upsert of
the aggregate RADIUS object — whose `servers` list holds only the primary —
and only once that upsert has completed successfully; when a secondary is
declared, no delete is issued at all. -/
theorem handleRadius_delete_after_aggregate (env : DevEnv) (auth : AuthenticationDecl)
    (radius : RadiusDecl) (servers : RadiusServersDecl) (primary : RadiusServerDecl)
    (hr : auth.radius = some radius) (hs : radius.servers = some servers)
    (hp : servers.primary = some primary) :
    (servers.secondary = none →
      ∀ (i : Nat) (p : DevPath), (handleRadius env auth).1[i]? = some (DevCall.del p) →
        env (DevCall.createOrModify .authRadius
          (radiusAggBody radius.serviceType [RADIUS_PRIMARY_SERVER]) true) = true ∧
        ∃ j : Nat, j < i ∧ (handleRadius env auth).1[j]? =
          some (DevCall.createOrModify .authRadius
            (radiusAggBody radius.serviceType [RADIUS_PRIMARY_SERVER]) true)) ∧
    (∀ sec, servers.secondary = some sec →
      ∀ p, DevCall.del p ∉ (handleRadius env auth).1) := by
  constructor
  · intro hsec i p hget
    simp only [handleRadius, hr, hs, hp, hsec] at hget ⊢
    cases h1 : env (DevCall.createOrModify .authRadiusServer
        (radiusServerBody primary RADIUS_PRIMARY_SERVER) false) with
    | false =>
      simp only [pall, pseq, callDev, h1, List.map_cons, List.map_nil, List.flatten,
        List.all_cons, List.all_nil, Bool.and_true, List.append_nil, if_false,
        Bool.false_eq_true] at hget
      rcases i with _ | i <;> simp at hget
    | true =>
      cases hA : env (DevCall.createOrModify .authRadius
          (radiusAggBody radius.serviceType [RADIUS_PRIMARY_SERVER]) true) with
      | false =>
        simp only [pall, pseq, callDev, h1, hA, List.map_cons, List.map_nil, List.flatten,
          List.all_cons, List.all_nil, Bool.and_true, List.append_nil, if_true,
          Bool.false_eq_true, if_false] at hget
        rcases i with _ | _ | i <;> simp at hget
      | true =>
        refine ⟨rfl, 1, ?_⟩
        simp only [pall, pseq, callDev, h1, hA, List.map_cons, List.map_nil, List.flatten,
          List.all_cons, List.all_nil, Bool.and_true, List.append_nil, if_true] at hget ⊢
        rcases i with _ | _ | _ | i
        · simp at hget
        · simp at hget
        · exact ⟨by omega, rfl⟩
        · simp at hget
  · intro sec hsec p hmem
    simp only [handleRadius, hr, hs, hp, hsec] at hmem
    cases h1 : env (DevCall.createOrModify .authRadiusServer
        (radiusServerBody primary RADIUS_PRIMARY_SERVER) false) with
    | false =>
      simp [pall, pseq, callDev, h1] at hmem
    | true =>
      cases h2 : env (DevCall.createOrModify .authRadiusServer
          (radiusServerBody sec RADIUS_SECONDARY_SERVER) false) with
      | false => simp [pall, pseq, callDev, h1, h2] at hmem
      | true =>
        cases hA : env (DevCall.createOrModify .authRadius
            (radiusAggBody radius.serviceType [RADIUS_PRIMARY_SERVER,
              RADIUS_SECONDARY_SERVER]) true) with
        | false => simp [pall, pseq, callDev, resolvedPromise, h1, h2, hA] at hmem
        | true => simp [pall, pseq, callDev, resolvedPromise, h1, h2, hA] at hmem

/-- Witness for C3 at a concrete declaration (primary only, every call
succeeding): the delete sits at index 2 of the trace, after the aggregate
upsert at index 1. -/
theorem handleRadius_delete_after_aggregate_witness :
    envAllOk (DevCall.createOrModify .authRadius
      (radiusAggBody demoRadius.serviceType [RADIUS_PRIMARY_SERVER]) true) = true ∧
    ∃ j : Nat, j < 2 ∧ (handleRadius envAllOk demoRadiusAuth).1[j]? =
      some (DevCall.createOrModify .authRadius
        (radiusAggBody demoRadius.serviceType [RADIUS_PRIMARY_SERVER]) true) :=
  (handleRadius_delete_after_aggregate envAllOk demoRadiusAuth demoRadius
    { primary := some demoRadiusServer, secondary := none } demoRadiusServer rfl rfl rfl).1
    rfl 2 (.authRadiusServerCommon RADIUS_SECONDARY_SERVER) (by rfl)

/-! ## C5 — error propagation through `process()` -/

/-- C5 (code bug): the claim — and the spec, and `process()`'s own doc
comment ("rejected if an error occurs") — says a failing remote call in any
step rejects the handler's promise.  The TACACS step violates this: its
`.catch` only logs.  Concretely, with only TACACS declared and a device
environment failing exactly the TACACS upsert, the TACACS call is issued and
fails, yet `process()` resolves successfully. -/
theorem authProcess_swallows_tacacs_failure :
    envFailTacacs (DevCall.createOrModify .authTacacs (tacacsBody demoTacacs) false) =
      false ∧
    DevCall.createOrModify .authTacacs (tacacsBody demoTacacs) false ∈
      (authProcess envFailTacacs (fun s => s) demoTacacsDecl).1 ∧
    (authProcess envFailTacacs (fun s => s) demoTacacsDecl).2 = true := by
  refine ⟨rfl, ?_, rfl⟩
  have htr : (authProcess envFailTacacs (fun s => s) demoTacacsDecl).1 =
      [DevCall.createOrModify .authTacacs (tacacsBody demoTacacs) false,
       DevCall.modify .authSource (.obj [("type", .str "tacacs"), ("fallback", .null)])] :=
    rfl
  rw [htr]
  exact List.mem_cons_self _ _

/-! ## C4 — LDAP: certificate material is installed before the upsert -/

theorem pseq_snd (a b : PromiseResult) : (pseq a b).2 = (a.2 && b.2) := by
  rcases a with ⟨la, sa⟩
  cases sa <;> simp [pseq]

theorem pall_mem (rs : List PromiseResult) (c : DevCall) :
    c ∈ (pall rs).1 ↔ ∃ r ∈ rs, c ∈ r.1 := by
  simp [pall, List.mem_flatten]

theorem pall_snd_true (rs : List PromiseResult) :
    (pall rs).2 = true ↔ ∀ r ∈ rs, r.2 = true := by
  simp [pall, List.all_eq_true]

theorem handleCert_success (env : DevEnv) (decode : String → String) (certName : String)
    (certObj : CertDecl) (certPath : DevPath)
    (h : (handleCert env decode certName certObj certPath).2 = true) :
    handleCert env decode certName certObj certPath =
      (certChainCalls decode certName certObj certPath, true) ∧
    ∀ c ∈ certChainCalls decode certName certObj certPath, env c = true := by
  cases h1 : env (uploadCertCall decode certName certObj) with
  | false => simp [handleCert, callDev, pseq, h1] at h
  | true =>
    cases h2 : env (createCertCall certName certPath) with
    | false => simp [handleCert, callDev, pseq, h1, h2] at h
    | true =>
      cases h3 : env (deleteCertCall certName) with
      | false => simp [handleCert, callDev, pseq, h1, h2, h3] at h
      | true =>
        refine ⟨by simp [handleCert, callDev, pseq, h1, h2, h3, certChainCalls], ?_⟩
        intro c hc
        simp only [certChainCalls, List.mem_cons, List.not_mem_nil, or_false] at hc
        rcases hc with rfl | rfl | rfl
        · exact h1
        · exact h2
        · exact h3

theorem handleCert_trace_sub (env : DevEnv) (decode : String → String) (certName : String)
    (certObj : CertDecl) (certPath : DevPath) :
    ∀ c ∈ (handleCert env decode certName certObj certPath).1,
      c ∈ certChainCalls decode certName certObj certPath := by
  intro c hc
  cases h1 : env (uploadCertCall decode certName certObj) <;>
    cases h2 : env (createCertCall certName certPath) <;>
      cases h3 : env (deleteCertCall certName) <;>
        simp [handleCert, callDev, pseq, h1, h2, h3, certChainCalls] at hc ⊢ <;>
          tauto

theorem certChainCalls_path (decode : String → String) (certName : String)
    (certObj : CertDecl) (certPath : DevPath) :
    ∀ c ∈ certChainCalls decode certName certObj certPath,
      c.path = .uploads certName ∨ c.path = certPath ∨ c.path = .unixRm := by
  intro c hc
  simp only [certChainCalls, List.mem_cons, List.not_mem_nil, or_false] at hc
  rcases hc with rfl | rfl | rfl
  · exact Or.inl rfl
  · exact Or.inr (Or.inl rfl)
  · exact Or.inr (Or.inr rfl)

theorem inlineCertOpt_mem (cert : Option CertDecl) (fileName : String) (path : DevPath) :
    ∀ fc ∈ inlineCertOpt cert fileName path, fc.1 = fileName ∧ fc.2.2 = path := by
  intro fc hfc
  cases cert with
  | none => simp [inlineCertOpt] at hfc
  | some c =>
    cases hb : c.base64 with
    | none => simp [inlineCertOpt, hb] at hfc
    | some b =>
      simp only [inlineCertOpt, hb, List.mem_singleton] at hfc
      subst hfc
      exact ⟨rfl, rfl⟩

theorem inlineCerts_path (ldap : LdapDecl) :
    ∀ fc ∈ inlineCerts ldap, fc.2.2 = DevPath.sslCert ∨ fc.2.2 = DevPath.sslKey := by
  intro fc hfc
  rcases List.mem_append.mp hfc with h | h
  · rcases List.mem_append.mp h with h' | h'
    · exact Or.inl (inlineCertOpt_mem _ _ _ fc h').2
    · exact Or.inl (inlineCertOpt_mem _ _ _ fc h').2
  · exact Or.inr (inlineCertOpt_mem _ _ _ fc h).2

/-- C4: in `handleLdap`, when the LDAP auth object upsert appears in the
trace, it comes strictly after the complete upload-and-install traffic for
every declared inline certificate/key, each of whose calls succeeded; and if
any inline upload fails, the handler rejects and the LDAP upsert is never
issued. -/
theorem handleLdap_certs_before_upsert (env : DevEnv) (decode : String → String)
    (auth : AuthenticationDecl) (ldap : LdapDecl) (hl : auth.ldap = some ldap) :
    (ldapAuthCall ldap ∈ (handleLdap env decode auth).1 →
      (handleLdap env decode auth).1 =
        expectedCertTrace decode ldap ++ [ldapAuthCall ldap] ∧
      ∀ c ∈ expectedCertTrace decode ldap, env c = true) ∧
    (∀ fc ∈ inlineCerts ldap, env (uploadCertCall decode fc.1 fc.2.1) = false →
      (handleLdap env decode auth).2 = false ∧
      ldapAuthCall ldap ∉ (handleLdap env decode auth).1) := by
  have hnol : ∀ c ∈ (pall ((inlineCerts ldap).map fun fc =>
      handleCert env decode fc.1 fc.2.1 fc.2.2)).1, c ≠ ldapAuthCall ldap := by
    intro c hc heq
    rcases (pall_mem _ _).mp hc with ⟨r, hr, hcr⟩
    rcases List.mem_map.mp hr with ⟨fc, hfc, rfl⟩
    have hsub := handleCert_trace_sub env decode fc.1 fc.2.1 fc.2.2 c hcr
    have hpath := certChainCalls_path decode fc.1 fc.2.1 fc.2.2 c hsub
    have hip := inlineCerts_path ldap fc hfc
    subst heq
    have hlp : (ldapAuthCall ldap).path = DevPath.authLdap := rfl
    rw [hlp] at hpath
    rcases hpath with h | h | h
    · exact DevPath.noConfusion h
    · rcases hip with h2 | h2 <;> rw [h2] at h <;> exact DevPath.noConfusion h
    · exact DevPath.noConfusion h
  constructor
  · intro hm
    simp only [handleLdap, hl] at hm ⊢
    cases hs : (pall ((inlineCerts ldap).map fun fc =>
        handleCert env decode fc.1 fc.2.1 fc.2.2)).2 with
    | false =>
      exfalso
      rw [show (pseq (pall ((inlineCerts ldap).map fun fc =>
          handleCert env decode fc.1 fc.2.1 fc.2.2))
          (callDev env (ldapAuthCall ldap))).1 =
          (pall ((inlineCerts ldap).map fun fc =>
            handleCert env decode fc.1 fc.2.1 fc.2.2)).1 by simp [pseq, hs]] at hm
      exact hnol _ hm rfl
    | true =>
      have hall : ∀ r ∈ (inlineCerts ldap).map fun fc =>
          handleCert env decode fc.1 fc.2.1 fc.2.2, r.2 = true :=
        (pall_snd_true _).mp hs
      have hP1 : (pall ((inlineCerts ldap).map fun fc =>
          handleCert env decode fc.1 fc.2.1 fc.2.2)).1 = expectedCertTrace decode ldap := by
        simp only [pall, expectedCertTrace, List.map_map]
        congr 1
        apply List.map_congr_left
        intro fc hfc
        exact congrArg Prod.fst
          ((handleCert_success env decode fc.1 fc.2.1 fc.2.2
            (hall _ (List.mem_map_of_mem _ hfc))).1)
      constructor
      · rw [show (pseq (pall ((inlineCerts ldap).map fun fc =>
            handleCert env decode fc.1 fc.2.1 fc.2.2))
            (callDev env (ldapAuthCall ldap))).1 =
            (pall ((inlineCerts ldap).map fun fc =>
              handleCert env decode fc.1 fc.2.1 fc.2.2)).1 ++ [ldapAuthCall ldap] by
          simp [pseq, hs, callDev]]
        rw [hP1]
      · intro c hc
        simp only [expectedCertTrace] at hc
        rcases List.mem_flatten.mp hc with ⟨l, hl2, hcl⟩
        rcases List.mem_map.mp hl2 with ⟨fc, hfc, rfl⟩
        exact (handleCert_success env decode fc.1 fc.2.1 fc.2.2
          (hall _ (List.mem_map_of_mem _ hfc))).2 c hcl
  · intro fc hfc hup
    have hcf : (handleCert env decode fc.1 fc.2.1 fc.2.2).2 = false := by
      simp [handleCert, callDev, pseq, hup]
    have hPf : (pall ((inlineCerts ldap).map fun fc =>
        handleCert env decode fc.1 fc.2.1 fc.2.2)).2 = false := by
      rcases Bool.eq_false_or_eq_true ((pall ((inlineCerts ldap).map fun fc =>
          handleCert env decode fc.1 fc.2.1 fc.2.2)).2) with h | h
      · exact absurd ((pall_snd_true _).mp h _ (List.mem_map_of_mem _ hfc)) (by simp [hcf])
      · exact h
    constructor
    · simp only [handleLdap, hl]
      rw [pseq_snd]
      simp [hPf]
    · intro hm
      simp only [handleLdap, hl] at hm
      rw [show (pseq (pall ((inlineCerts ldap).map fun fc =>
          handleCert env decode fc.1 fc.2.1 fc.2.2))
          (callDev env (ldapAuthCall ldap))).1 =
          (pall ((inlineCerts ldap).map fun fc =>
            handleCert env decode fc.1 fc.2.1 fc.2.2)).1 by simp [pseq, hPf]] at hm
      exact hnol _ hm rfl

/-- Witness for C4 at a concrete LDAP declaration with one inline CA
certificate and an environment failing the upload: the handler rejects and
the LDAP upsert is never issued. -/
theorem handleLdap_certs_before_upsert_witness :
    envFailUploads (uploadCertCall (fun s => s) "do_ldapCaCert.crt" demoCaCert) = false ∧
    (handleLdap envFailUploads (fun s => s) demoLdapAuth).2 = false ∧
    ldapAuthCall demoLdap ∉ (handleLdap envFailUploads (fun s => s) demoLdapAuth).1 := by
  have hup : envFailUploads (uploadCertCall (fun s => s) "do_ldapCaCert.crt" demoCaCert) =
      false := rfl
  have hfc : ("do_ldapCaCert.crt", demoCaCert, DevPath.sslCert) ∈ inlineCerts demoLdap :=
    List.mem_append_left _ (List.mem_append_left _ (List.mem_singleton.mpr rfl))
  have h := (handleLdap_certs_before_upsert envFailUploads (fun s => s) demoLdapAuth
    demoLdap rfl).2 ("do_ldapCaCert.crt", demoCaCert, DevPath.sslCert) hfc hup
  exact ⟨hup, h.1, h.2⟩

end FDO
